import Mathlib

/-!
Verification of the numerical engine of the Action-Principle teaching demos
(refraction / least-action mechanics / double-slit interference).

The JavaScript sources are shallowly embedded: floating-point arithmetic is
modelled by real arithmetic, `Math.hypot (a, b)` by `Real.sqrt (a^2 + b^2)`,
`Math.atan2 (y, x)` for `x > 0` by `Real.arctan (y / x)`, `Math.pow x y` by
`Real.rpow`, and the ambient `Math.random ()` stream by an explicit function
`r : ℕ → ℝ` consumed at successive indices.  Class fields that are fixed
configuration (canvas height, pixel scale, endpoints) become parameters or
literal constants, matching the constructor values noted at each definition.
-/

/-! ## Definitions (shallow embedding of fermat.js, mechanics.js, quantum.js) -/

/-- `calculatePathLength` from quantum.js: Euclidean length between two points
(`Math.hypot`). -/
noncomputable def calculatePathLength (p q : ℝ × ℝ) : ℝ :=
  Real.sqrt ((q.1 - p.1) ^ 2 + (q.2 - p.2) ^ 2)

/-- `calculatePhase` from quantum.js: phase `2π·L / (wavelength/1000)`. -/
noncomputable def calculatePhase (wavelength pathLength : ℝ) : ℝ :=
  2 * Real.pi * pathLength / (wavelength / 1000)

/-- The record returned by `calculateAmplitude` in quantum.js. -/
structure AmplitudeResult where
  amp1 : ℝ × ℝ
  amp2 : ℝ × ℝ
  totalAmp : ℝ × ℝ
  intensity : ℝ
  phase1 : ℝ
  phase2 : ℝ

/-- `calculateAmplitude` from quantum.js: the two-slit phasor sum at detector
height `screenY` on the screen `x = 700`.  `source`, `slit1`, `slit2` are the
class fields of the same names. -/
noncomputable def calculateAmplitude (source slit1 slit2 : ℝ × ℝ)
    (wavelength screenY : ℝ) : AmplitudeResult :=
  let screenPoint : ℝ × ℝ := (700, screenY)
  let path1Length := calculatePathLength source slit1 +
    calculatePathLength slit1 screenPoint
  let phase1 := calculatePhase wavelength path1Length
  let path2Length := calculatePathLength source slit2 +
    calculatePathLength slit2 screenPoint
  let phase2 := calculatePhase wavelength path2Length
  let amp1 : ℝ × ℝ := (Real.cos phase1, Real.sin phase1)
  let amp2 : ℝ × ℝ := (Real.cos phase2, Real.sin phase2)
  let totalAmp : ℝ × ℝ := (amp1.1 + amp2.1, amp1.2 + amp2.2)
  { amp1 := amp1
    amp2 := amp2
    totalAmp := totalAmp
    intensity := totalAmp.1 * totalAmp.1 + totalAmp.2 * totalAmp.2
    phase1 := phase1
    phase2 := phase2 }

/-- One segment's contribution in the `calculateAction` loop of mechanics.js:
convert the endpoints to physical metres (`x/scale`, `(H - y)/scale` with `H`
the canvas height, so height is measured upward from the ground), form the
finite-difference velocity over `dt` and the midpoint height, and return
`(½·m·v² - m·g·ȳ)·dt`. -/
noncomputable def actionSegment (mass gravity dt scale H : ℝ) (p1 p2 : ℝ × ℝ) : ℝ :=
  let x1 := p1.1 / scale
  let y1 := (H - p1.2) / scale
  let x2 := p2.1 / scale
  let y2 := (H - p2.2) / scale
  let vx := (x2 - x1) / dt
  let vy := (y2 - y1) / dt
  let v2 := vx * vx + vy * vy
  let ybar := (y1 + y2) * 0.5
  (0.5 * mass * v2 - mass * gravity * ybar) * dt

/-- `calculateAction` from mechanics.js: `dt = totalTime/(points.length - 1)`
and the loop over consecutive point pairs accumulating `L·dt`.  The class
fields are parameters: `mass = 0.6`, `gravity = 9.8`, `scale = pixelScale
= 50`, `H = canvas.height` in the demo. -/
noncomputable def calculateAction (mass gravity totalTime scale H : ℝ)
    (points : List (ℝ × ℝ)) : ℝ :=
  let dt := totalTime / ((points.length : ℝ) - 1)
  (points.zip points.tail).foldl
    (fun acc pq => acc + actionSegment mass gravity dt scale H pq.1 pq.2) 0

/-- `estimateFlightTime` from mechanics.js: degenerate-distance guard at
`10⁻⁶`, then `((4·d²)/g²)^(1/4)` clamped into `[0.6, 2.5]`.  `gravity` is the
class field (default `9.8`). -/
noncomputable def estimateFlightTime (gravity x0 y0 xT yT : ℝ) : ℝ :=
  let dx := xT - x0
  let dy := yT - y0
  let distanceSq := dx * dx + dy * dy
  if distanceSq < 1e-6 then 0.8
  else
    min (max ((4 * distanceSq / (gravity * gravity)) ^ (0.25 : ℝ)) 0.6) 2.5

/-- The three sampling modes of `generatePaths` in mechanics.js
(`'spray'`, `'neighborhood'`, `'heatmap'`). -/
inductive PathMode where
  | spray : PathMode
  | neighborhood : PathMode
  | heatmap : PathMode

/-- `generateRandomControlPoints` from mechanics.js: the two Bézier control
points drawn from the ambient random stream `r` starting at index `idx`
(the four `Math.random ()` calls occur in source order `c1.x`, `c1.y`,
`c2.x`, `c2.y`).  `(sx, sy)` is `startPoint`, `(tx, ty)` is `target`. -/
noncomputable def generateRandomControlPoints (sx sy tx ty : ℝ) (r : ℕ → ℝ)
    (idx : ℕ) : (ℝ × ℝ) × (ℝ × ℝ) :=
  let dx := tx - sx
  ((sx + dx * (0.2 + r idx * 0.3), sy - 50 - r (idx + 1) * 300),
   (sx + dx * (0.5 + r (idx + 2) * 0.3), sy - 50 - r (idx + 3) * 300))

/-- `generateNearbyControlPoints` from mechanics.js: start from the
approximate classical control points and add uniform noise of half-width
`sigma` horizontally and `sigma/2` vertically, consuming four stream values
from index `idx`. -/
noncomputable def generateNearbyControlPoints (sx sy tx ty sigma : ℝ)
    (r : ℕ → ℝ) (idx : ℕ) : (ℝ × ℝ) × (ℝ × ℝ) :=
  let dx := tx - sx
  let dy := sy - ty
  let classicalC1 : ℝ × ℝ := (sx + dx * 0.33, sy - dy * 0.8 - 100)
  let classicalC2 : ℝ × ℝ := (sx + dx * 0.67, sy - dy * 0.8 - 100)
  ((classicalC1.1 + (r idx - 0.5) * sigma * 2,
    classicalC1.2 + (r (idx + 1) - 0.5) * sigma),
   (classicalC2.1 + (r (idx + 2) - 0.5) * sigma * 2,
    classicalC2.2 + (r (idx + 3) - 0.5) * sigma))

/-- The noise half-width used for the `i`-th neighborhood sample in
`generatePaths`: `sigma = 20 + i * 3`. -/
noncomputable def neighborhoodSigma (i : ℕ) : ℝ := 20 + i * 3

/-- The spray branch of `generatePaths`: `numPaths` independent draws of
random control points, consuming four stream values each. -/
noncomputable def sprayControlPoints (sx sy tx ty : ℝ) (numPaths : ℕ)
    (r : ℕ → ℝ) : List ((ℝ × ℝ) × (ℝ × ℝ)) :=
  (List.range numPaths).map (fun i => generateRandomControlPoints sx sy tx ty r (4 * i))

/-- The neighborhood branch of `generatePaths`: the `i`-th sample perturbs
the classical control points with half-width `neighborhoodSigma i`. -/
noncomputable def neighborhoodControlPoints (sx sy tx ty : ℝ) (numPaths : ℕ)
    (r : ℕ → ℝ) : List ((ℝ × ℝ) × (ℝ × ℝ)) :=
  (List.range numPaths).map
    (fun i => generateNearbyControlPoints sx sy tx ty (neighborhoodSigma i) r (4 * i))

/-- The heatmap branch of `generatePaths`: a deterministic
`⌊√numPaths⌋ × ⌊√numPaths⌋` sweep of control values
(`gridSize = Math.floor (Math.sqrt (numPaths))`). -/
noncomputable def heatmapControlPoints (sx sy tx ty : ℝ) (numPaths : ℕ) :
    List ((ℝ × ℝ) × (ℝ × ℝ)) :=
  let gridSize := Nat.sqrt numPaths
  let dx := tx - sx
  (List.range gridSize).flatMap (fun (i : ℕ) =>
    (List.range gridSize).map (fun (j : ℕ) =>
      ((sx + dx * (0.15 + (i : ℝ) / (gridSize : ℝ) * 0.4),
        sy - 50 - (j : ℝ) / (gridSize : ℝ) * 300),
       (sx + dx * (0.45 + (i : ℝ) / (gridSize : ℝ) * 0.4),
        sy - 50 - (j : ℝ) / (gridSize : ℝ) * 300))))

/-- The control points produced by one `generatePaths` recomputation in the
given mode (each pair is resampled into one candidate path downstream). -/
noncomputable def generatePathsControls (mode : PathMode) (sx sy tx ty : ℝ)
    (numPaths : ℕ) (r : ℕ → ℝ) : List ((ℝ × ℝ) × (ℝ × ℝ)) :=
  match mode with
  | PathMode.spray => sprayControlPoints sx sy tx ty numPaths r
  | PathMode.neighborhood => neighborhoodControlPoints sx sy tx ty numPaths r
  | PathMode.heatmap => heatmapControlPoints sx sy tx ty numPaths

/-- Ceiling square root, written from the spec's words `⌈√count⌉` (the least
natural whose square is at least `count`). -/
def ceilSqrt (n : ℕ) : ℕ :=
  if Nat.sqrt n * Nat.sqrt n = n then Nat.sqrt n else Nat.sqrt n + 1

/-- The phase-scale computation at the end of `generatePaths` in
mechanics.js: `spread = maxAction - minAction` over the classical action and
all candidate actions, `phaseScale = spread > 0 ? spread/(π·1.5) : 1`,
followed by the guard resetting a zero (or non-finite, impossible over ℝ)
scale to `1`. -/
noncomputable def phaseScaleOf (classicalAction : ℝ) (actions : List ℝ) : ℝ :=
  let minAction := actions.foldl min classicalAction
  let maxAction := actions.foldl max classicalAction
  let spread := maxAction - minAction
  let s := if spread > 0 then spread / (Real.pi * 1.5) else 1
  if s = 0 then 1 else s

/-- The phase assignment loop of `generatePaths`:
`path.phase = (path.action - classicalAction) / phaseScale`. -/
noncomputable def assignPhases (classicalAction : ℝ) (actions : List ℝ) : List ℝ :=
  actions.map (fun a => (a - classicalAction) / phaseScaleOf classicalAction actions)

/-- `v1` from fermat.js: `speedOfLight / n1`. -/
noncomputable def fermatV1 : ℝ := 299.792 / 1

/-- `v2` from fermat.js: `speedOfLight / n2` at the default `n2 = 1.5`. -/
noncomputable def fermatV2 : ℝ := 299.792 / 1.5

/-- `calculateTravelTime` from fermat.js: `T(x) = d1/v1 + d2/v2` with `d1`
the distance from the source `(150, 100)` to the boundary point
`(x, 300)` and `d2` the distance from there to the target `(650, 500)`. -/
noncomputable def calculateTravelTime (x : ℝ) : ℝ :=
  Real.sqrt ((x - 150) ^ 2 + (300 - 100) ^ 2) / fermatV1 +
    Real.sqrt ((650 - x) ^ 2 + (500 - 300) ^ 2) / fermatV2

/-- `calculateAngles` from fermat.js, in degrees.  The source computes
`Math.abs (Math.atan2 (dx, dy)) * 180 / π` with `dy = 200 > 0` for both
angles, and `atan2 (dx, dy)` with a positive second argument is
`arctan (dx / dy)`. -/
noncomputable def calculateAngles (x : ℝ) : ℝ × ℝ :=
  (|Real.arctan ((x - 150) / (300 - 100))| * 180 / Real.pi,
   |Real.arctan ((650 - x) / (500 - 300))| * 180 / Real.pi)

/-- The grid scanned by `findOptimalRefractionPoint`:
`x = 100, 100.5, …, 700` (the float loop `for (x = 100; x <= 700; x += 0.5)`
is exact in binary floating point, giving 1201 iterations). -/
noncomputable def fermatGrid : List ℝ :=
  (List.range 1201).map (fun (k : ℕ) => 100 + (k : ℝ) / 2)

/-- One iteration of the minimum search in `findOptimalRefractionPoint`.
The state is `none` while `minTime` is still the initial `Infinity` (any
travel time compares below it), and `some (minTime, optimalX)` afterwards. -/
noncomputable def searchStep (acc : Option (ℝ × ℝ)) (x : ℝ) : Option (ℝ × ℝ) :=
  match acc with
  | none => some (calculateTravelTime x, x)
  | some (m, o) =>
      if calculateTravelTime x < m then some (calculateTravelTime x, x)
      else some (m, o)

/-- `findOptimalRefractionPoint` from fermat.js (the returned `y` is always
`boundaryY = 300`; we keep the pair `(minTime, optimalX)`). -/
noncomputable def findOptimalRefractionPoint : Option (ℝ × ℝ) :=
  fermatGrid.foldl searchStep none

/-! ## Theorems -/

/-- The intensity of the two-phasor sum collapses to `2 + 2cos (φ₁ - φ₂)`. -/
lemma calculateAmplitude_intensity_eq (source slit1 slit2 : ℝ × ℝ)
    (wavelength screenY : ℝ) :
    (calculateAmplitude source slit1 slit2 wavelength screenY).intensity =
      2 + 2 * Real.cos
        ((calculateAmplitude source slit1 slit2 wavelength screenY).phase1 -
         (calculateAmplitude source slit1 slit2 wavelength screenY).phase2) := by
  simp only [calculateAmplitude]
  rw [Real.cos_sub]
  have h1 := Real.sin_sq_add_cos_sq
    (calculatePhase wavelength (calculatePathLength source slit1 +
      calculatePathLength slit1 (700, screenY)))
  have h2 := Real.sin_sq_add_cos_sq
    (calculatePhase wavelength (calculatePathLength source slit2 +
      calculatePathLength slit2 (700, screenY)))
  ring_nf
  ring_nf at h1 h2
  linarith [h1, h2]

/-- C2: for every detector position `y` and every positive wavelength, the
intensity returned by `calculateAmplitude` (squared magnitude of the sum of
the two unit phasors of the two slit paths) equals `2 + 2·cos (Δφ)` where
`Δφ = φ₁ - φ₂` is the phase difference of the two paths. -/
theorem quantum_intensity_interference_law (source slit1 slit2 : ℝ × ℝ)
    (wavelength screenY : ℝ) (hw : 0 < wavelength) :
    (calculateAmplitude source slit1 slit2 wavelength screenY).intensity =
      2 + 2 * Real.cos
        ((calculateAmplitude source slit1 slit2 wavelength screenY).phase1 -
         (calculateAmplitude source slit1 slit2 wavelength screenY).phase2) :=
  calculateAmplitude_intensity_eq source slit1 slit2 wavelength screenY

/-- Witness for C2 at the constructor configuration: source `(100, 300)`,
slits `(350, 250)` and `(350, 350)`, wavelength `550`, detector `y = 300`. -/
theorem quantum_intensity_interference_law_witness :
    0 < (550 : ℝ) ∧
    (calculateAmplitude (100, 300) (350, 250) (350, 350) 550 300).intensity =
      2 + 2 * Real.cos
        ((calculateAmplitude (100, 300) (350, 250) (350, 350) 550 300).phase1 -
         (calculateAmplitude (100, 300) (350, 250) (350, 350) 550 300).phase2) :=
  ⟨by norm_num,
   quantum_intensity_interference_law (100, 300) (350, 250) (350, 350) 550 300
     (by norm_num)⟩

/-- C10: for every detector position, slit configuration and positive
wavelength, the interference intensity lies in `[0, 4]`, so the renderer's
normalisation by the hard-coded `maxIntensity = 4` lies in `[0, 1]`. -/
theorem quantum_intensity_bounded (source slit1 slit2 : ℝ × ℝ)
    (wavelength screenY : ℝ) (hw : 0 < wavelength) :
    0 ≤ (calculateAmplitude source slit1 slit2 wavelength screenY).intensity ∧
    (calculateAmplitude source slit1 slit2 wavelength screenY).intensity ≤ 4 ∧
    0 ≤ (calculateAmplitude source slit1 slit2 wavelength screenY).intensity / 4 ∧
    (calculateAmplitude source slit1 slit2 wavelength screenY).intensity / 4 ≤ 1 := by
  have h := calculateAmplitude_intensity_eq source slit1 slit2 wavelength screenY
  have hc1 := Real.neg_one_le_cos
    ((calculateAmplitude source slit1 slit2 wavelength screenY).phase1 -
     (calculateAmplitude source slit1 slit2 wavelength screenY).phase2)
  have hc2 := Real.cos_le_one
    ((calculateAmplitude source slit1 slit2 wavelength screenY).phase1 -
     (calculateAmplitude source slit1 slit2 wavelength screenY).phase2)
  refine ⟨by linarith, by linarith, by linarith, by linarith⟩

/-- Witness for C10 at the constructor configuration. -/
theorem quantum_intensity_bounded_witness :
    0 ≤ (calculateAmplitude (100, 300) (350, 250) (350, 350) 550 300).intensity ∧
    (calculateAmplitude (100, 300) (350, 250) (350, 350) 550 300).intensity ≤ 4 ∧
    0 ≤ (calculateAmplitude (100, 300) (350, 250) (350, 350) 550 300).intensity / 4 ∧
    (calculateAmplitude (100, 300) (350, 250) (350, 350) 550 300).intensity / 4 ≤ 1 :=
  quantum_intensity_bounded (100, 300) (350, 250) (350, 350) 550 300 (by norm_num)

/-- Folding segment contributions over consecutive pairs equals the indexed
sum of the spec's discretised action formula. -/
lemma foldl_zip_tail_eq_sum (f : ℝ × ℝ → ℝ × ℝ → ℝ) :
    ∀ (l : List (ℝ × ℝ)) (acc : ℝ),
      (l.zip l.tail).foldl (fun a pq => a + f pq.1 pq.2) acc =
        acc + ∑ k ∈ Finset.range (l.length - 1),
          f (l.getD k (0, 0)) (l.getD (k + 1) (0, 0)) := by
  intro l
  induction l with
  | nil => intro acc; simp
  | cons p tl ih =>
    intro acc
    cases tl with
    | nil => simp
    | cons q rest =>
      have hzip : ((p :: q :: rest).zip (p :: q :: rest).tail) =
          (p, q) :: ((q :: rest).zip (q :: rest).tail) := by
        simp [List.zip]
      rw [hzip, List.foldl_cons, ih (acc + f p q)]
      have hlen : (p :: q :: rest).length - 1 = ((q :: rest).length - 1) + 1 := by
        simp
      rw [hlen, Finset.sum_range_succ']
      simp [List.getD_cons_succ, List.getD_cons_zero]
      ring

/-- C3: for every path and parameters, `calculateAction` returns exactly the
discretised Lagrangian action `∑ₖ (½·m·‖vₖ‖² - m·g·ȳₖ)·dt` with
`dt = totalTime/N`, finite-difference segment velocities and midpoint heights
measured upward from the ground reference.  (The embedding is a pure function
of the path, mirroring that the source never mutates its input.) -/
theorem mechanics_calculateAction_eq (mass gravity totalTime scale H : ℝ)
    (points : List (ℝ × ℝ)) (hT : 0 < totalTime) :
    calculateAction mass gravity totalTime scale H points =
      ∑ k ∈ Finset.range (points.length - 1),
        (0.5 * mass *
            ((((points.getD (k + 1) (0, 0)).1 / scale -
                (points.getD k (0, 0)).1 / scale) /
                  (totalTime / ((points.length : ℝ) - 1))) ^ 2 +
             (((H - (points.getD (k + 1) (0, 0)).2) / scale -
                (H - (points.getD k (0, 0)).2) / scale) /
                  (totalTime / ((points.length : ℝ) - 1))) ^ 2) -
          mass * gravity *
            (((H - (points.getD k (0, 0)).2) / scale +
              (H - (points.getD (k + 1) (0, 0)).2) / scale) / 2)) *
        (totalTime / ((points.length : ℝ) - 1)) := by
  unfold calculateAction
  rw [foldl_zip_tail_eq_sum]
  rw [zero_add]
  refine Finset.sum_congr rfl fun k _ => ?_
  unfold actionSegment
  ring

/-- Witness for C3: a concrete three-point path with `totalTime = 2`. -/
theorem mechanics_calculateAction_eq_witness :
    0 < (2 : ℝ) ∧
    calculateAction 1 10 2 1 600 [(0, 0), (1, 1), (2, 0)] =
      ∑ k ∈ Finset.range ([(0, 0), (1, 1), (2, 0)].length - 1),
        (0.5 * 1 *
            (((([(0, 0), (1, 1), (2, 0)].getD (k + 1) ((0 : ℝ), (0 : ℝ))).1 / 1 -
                ([(0, 0), (1, 1), (2, 0)].getD k ((0 : ℝ), (0 : ℝ))).1 / 1) /
                  (2 / (([(0, 0), (1, 1), (2, 0)].length : ℝ) - 1))) ^ 2 +
             (((600 - ([(0, 0), (1, 1), (2, 0)].getD (k + 1) ((0 : ℝ), (0 : ℝ))).2) / 1 -
                (600 - ([(0, 0), (1, 1), (2, 0)].getD k ((0 : ℝ), (0 : ℝ))).2) / 1) /
                  (2 / (([(0, 0), (1, 1), (2, 0)].length : ℝ) - 1))) ^ 2) -
          1 * 10 *
            (((600 - ([(0, 0), (1, 1), (2, 0)].getD k ((0 : ℝ), (0 : ℝ))).2) / 1 +
              (600 - ([(0, 0), (1, 1), (2, 0)].getD (k + 1) ((0 : ℝ), (0 : ℝ))).2) / 1) / 2)) *
        (2 / (([(0, 0), (1, 1), (2, 0)].length : ℝ) - 1)) :=
  ⟨by norm_num, mechanics_calculateAction_eq 1 10 2 1 600 _ (by norm_num)⟩

/-- `(0.1296)^(1/4) = 0.6`, the clamp floor raised to the fourth root. -/
lemma rpow_quarter_of_pow_four (y : ℝ) (hy : 0 ≤ y) :
    (y ^ (4 : ℕ)) ^ ((0.25 : ℝ)) = y := by
  rw [← Real.rpow_natCast y 4, ← Real.rpow_mul hy]
  norm_num

/-- C5 counterexample: moving the target from distance `0` to distance
`1/1000` (crossing the degenerate-distance guard) makes `estimateFlightTime`
drop from `0.8` to `0.6`, so the estimate is not monotone in the endpoint
distance. -/
theorem estimateFlightTime_not_monotone :
    Real.sqrt ((0 - 0 : ℝ) ^ 2 + (0 - 0 : ℝ) ^ 2) ≤
      Real.sqrt ((1 / 1000 - 0 : ℝ) ^ 2 + (0 - 0 : ℝ) ^ 2) ∧
    estimateFlightTime 9.8 0 0 0 0 = 0.8 ∧
    estimateFlightTime 9.8 0 0 (1 / 1000) 0 = 0.6 ∧
    estimateFlightTime 9.8 0 0 (1 / 1000) 0 < estimateFlightTime 9.8 0 0 0 0 := by
  have hdist : Real.sqrt ((0 - 0 : ℝ) ^ 2 + (0 - 0 : ℝ) ^ 2) ≤
      Real.sqrt ((1 / 1000 - 0 : ℝ) ^ 2 + (0 - 0 : ℝ) ^ 2) :=
    Real.sqrt_le_sqrt (by norm_num)
  have h0 : estimateFlightTime 9.8 0 0 0 0 = 0.8 := by
    unfold estimateFlightTime
    norm_num
  have h1 : estimateFlightTime 9.8 0 0 (1 / 1000) 0 = 0.6 := by
    unfold estimateFlightTime
    rw [if_neg (by norm_num)]
    have hraw : ((4 * ((1 / 1000 - 0 : ℝ) * (1 / 1000 - 0) + (0 - 0) * (0 - 0)) /
        ((9.8 : ℝ) * 9.8)) ^ (0.25 : ℝ)) ≤ 0.6 := by
      have hle : (4 * ((1 / 1000 - 0 : ℝ) * (1 / 1000 - 0) + (0 - 0) * (0 - 0)) /
          ((9.8 : ℝ) * 9.8)) ≤ (0.6 : ℝ) ^ (4 : ℕ) := by norm_num
      have h6 : ((0.6 : ℝ) ^ (4 : ℕ)) ^ ((0.25 : ℝ)) = 0.6 :=
        rpow_quarter_of_pow_four 0.6 (by norm_num)
      calc (4 * ((1 / 1000 - 0 : ℝ) * (1 / 1000 - 0) + (0 - 0) * (0 - 0)) /
            ((9.8 : ℝ) * 9.8)) ^ (0.25 : ℝ)
          ≤ ((0.6 : ℝ) ^ (4 : ℕ)) ^ ((0.25 : ℝ)) :=
            Real.rpow_le_rpow (by norm_num) hle (by norm_num)
        _ = 0.6 := h6
    rw [max_eq_right hraw, min_eq_left (by norm_num)]
  exact ⟨hdist, h0, h1, by rw [h0, h1]; norm_num⟩

/-- C5 amended: `estimateFlightTime` always returns a value in the fixed
positive interval `[0.6, 2.5]` — for every endpoint pair, including
coincident or near-coincident endpoints on the degenerate guard branch — and
it is monotone non-decreasing in the endpoint distance on the non-degenerate
branch (both squared distances at least `10⁻⁶`); the degenerate guard value
`0.8` breaks global monotonicity across the threshold. -/
theorem estimateFlightTime_bounded_and_monotone (gravity : ℝ)
    (x0 y0 xT yT x0' y0' xT' yT' : ℝ) (hg : 0 < gravity) :
    (0.6 ≤ estimateFlightTime gravity x0 y0 xT yT ∧
      estimateFlightTime gravity x0 y0 xT yT ≤ 2.5) ∧
    (1e-6 ≤ (xT - x0) * (xT - x0) + (yT - y0) * (yT - y0) →
      1e-6 ≤ (xT' - x0') * (xT' - x0') + (yT' - y0') * (yT' - y0') →
      Real.sqrt ((xT - x0) * (xT - x0) + (yT - y0) * (yT - y0)) ≤
        Real.sqrt ((xT' - x0') * (xT' - x0') + (yT' - y0') * (yT' - y0')) →
      estimateFlightTime gravity x0 y0 xT yT ≤
        estimateFlightTime gravity x0' y0' xT' yT') := by
  constructor
  · unfold estimateFlightTime
    by_cases hguard : (xT - x0) * (xT - x0) + (yT - y0) * (yT - y0) < 1e-6
    · rw [if_pos hguard]; norm_num
    · rw [if_neg hguard]
      refine ⟨le_min (le_max_right _ _) (by norm_num), min_le_right _ _⟩
  · intro h1 h2 hdist
    have hsq : (xT - x0) * (xT - x0) + (yT - y0) * (yT - y0) ≤
        (xT' - x0') * (xT' - x0') + (yT' - y0') * (yT' - y0') := by
      have hnn : 0 ≤ (xT' - x0') * (xT' - x0') + (yT' - y0') * (yT' - y0') := by
        positivity
      rwa [Real.sqrt_le_sqrt_iff hnn] at hdist
    unfold estimateFlightTime
    rw [if_neg (by linarith), if_neg (by linarith)]
    have hmono : (4 * ((xT - x0) * (xT - x0) + (yT - y0) * (yT - y0)) /
        (gravity * gravity)) ^ (0.25 : ℝ) ≤
        (4 * ((xT' - x0') * (xT' - x0') + (yT' - y0') * (yT' - y0')) /
        (gravity * gravity)) ^ (0.25 : ℝ) := by
      apply Real.rpow_le_rpow
      · positivity
      · apply div_le_div_of_nonneg_right _ (by positivity)
        · linarith
      · norm_num
    exact min_le_min (max_le_max hmono (le_refl _)) (le_refl _)

/-- Witness for the amended C5 at `gravity = 9.8`: the `[0.6, 2.5]` bound at
the coincident endpoint pair `(0,0)-(0,0)` (the degenerate guard branch) and
monotonicity across the non-degenerate pairs `(0,0)-(10,0)` and
`(0,0)-(20,0)`. -/
theorem estimateFlightTime_bounded_and_monotone_witness :
    (0.6 ≤ estimateFlightTime 9.8 0 0 0 0 ∧
      estimateFlightTime 9.8 0 0 0 0 ≤ 2.5) ∧
    estimateFlightTime 9.8 0 0 10 0 ≤ estimateFlightTime 9.8 0 0 20 0 :=
  ⟨(estimateFlightTime_bounded_and_monotone 9.8 0 0 0 0 0 0 0 0
      (by norm_num)).1,
   (estimateFlightTime_bounded_and_monotone 9.8 0 0 10 0 0 0 20 0
      (by norm_num)).2 (by norm_num) (by norm_num)
     (Real.sqrt_le_sqrt (by norm_num))⟩

/-- The heatmap sweep yields exactly `⌊√count⌋ · ⌊√count⌋` control pairs. -/
lemma heatmapControlPoints_length (sx sy tx ty : ℝ) (numPaths : ℕ) :
    (heatmapControlPoints sx sy tx ty numPaths).length =
      Nat.sqrt numPaths * Nat.sqrt numPaths := by
  unfold heatmapControlPoints
  rw [List.length_flatMap]
  simp only [Function.comp_def, List.length_map, List.length_range]
  rw [List.map_const', List.sum_replicate, List.length_range, smul_eq_mul]

/-- C6 counterexample: at the default endpoints with sample budget
`count = 2`, the heatmap sweep produces `⌊√2⌋² = 1` path, not the claimed
`⌈√2⌉² = 4` (the source uses `Math.floor`, not a ceiling). -/
theorem heatmap_grid_size_counterexample :
    (heatmapControlPoints 100 500 700 300 2).length = 1 ∧
    ceilSqrt 2 ^ 2 = 4 ∧
    (heatmapControlPoints 100 500 700 300 2).length ≠ ceilSqrt 2 ^ 2 := by
  have hs : Nat.sqrt 2 = 1 := by
    have h1 : Nat.sqrt 2 < 2 := by rw [Nat.sqrt_lt']; norm_num
    have h2 : 1 ≤ Nat.sqrt 2 := by rw [Nat.le_sqrt]; norm_num
    omega
  have hc : ceilSqrt 2 = 2 := by simp [ceilSqrt, hs]
  rw [heatmapControlPoints_length, hs, hc]
  norm_num

/-- C6 amended: in GRID (heatmap) mode with sample budget `count > 0`, the
sweep is a deterministic regular `⌊√count⌋ × ⌊√count⌋` grid — exactly
`⌊√count⌋²` candidate paths — and consumes no randomness, so two invocations
with the same parameters (any two ambient streams) yield identical sets. -/
theorem heatmap_grid_deterministic (sx sy tx ty : ℝ) (count : ℕ)
    (hcount : 0 < count) (r1 r2 : ℕ → ℝ) :
    (generatePathsControls PathMode.heatmap sx sy tx ty count r1).length =
      Nat.sqrt count * Nat.sqrt count ∧
    generatePathsControls PathMode.heatmap sx sy tx ty count r1 =
      generatePathsControls PathMode.heatmap sx sy tx ty count r2 := by
  exact ⟨heatmapControlPoints_length sx sy tx ty count, rfl⟩

/-- Witness for the amended C6 at the default endpoints with `count = 30`. -/
theorem heatmap_grid_deterministic_witness :
    (generatePathsControls PathMode.heatmap 100 500 700 300 30
        (fun _ => 0)).length = Nat.sqrt 30 * Nat.sqrt 30 ∧
    generatePathsControls PathMode.heatmap 100 500 700 300 30 (fun _ => 0) =
      generatePathsControls PathMode.heatmap 100 500 700 300 30 (fun _ => 1 / 2) :=
  heatmap_grid_deterministic 100 500 700 300 30 (by norm_num)
    (fun _ => 0) (fun _ => 1 / 2)

/-- C7 counterexample: with identical parameters, two different ambient
`Math.random` streams give different spray candidate sets — the sampler has
no seed input and depends on the ambient unseeded stream, so invocations
with identical parameters are not reproducible. -/
theorem sampler_unseeded_counterexample :
    generatePathsControls PathMode.spray 0 0 1 0 1 (fun _ => 0) ≠
      generatePathsControls PathMode.spray 0 0 1 0 1 (fun _ => 1 / 2) := by
  intro h
  have hx := congrArg (fun l => (l.getD 0 ((0, 0), (0, 0))).1.1) h
  have hr1 : List.range 1 = [0] := rfl
  simp only [generatePathsControls, sprayControlPoints,
    generateRandomControlPoints, hr1, List.map_cons, List.map_nil,
    List.getD_cons_zero] at hx
  norm_num at hx

/-- C7 amended: with the ambient random stream made explicit, every sampling
mode is a deterministic function of the parameters and the consumed stream
prefix: if two streams agree on the `4·count` values the sampler reads, the
produced candidate sets are identical (the heatmap mode reads none). -/
theorem sampler_deterministic_given_stream (mode : PathMode) (sx sy tx ty : ℝ)
    (count : ℕ) (r1 r2 : ℕ → ℝ) (hagree : ∀ k, k < 4 * count → r1 k = r2 k) :
    generatePathsControls mode sx sy tx ty count r1 =
      generatePathsControls mode sx sy tx ty count r2 := by
  have hidx : ∀ i, i < count → r1 (4 * i) = r2 (4 * i) ∧
      r1 (4 * i + 1) = r2 (4 * i + 1) ∧ r1 (4 * i + 2) = r2 (4 * i + 2) ∧
      r1 (4 * i + 3) = r2 (4 * i + 3) := by
    intro i hi
    exact ⟨hagree _ (by omega), hagree _ (by omega), hagree _ (by omega),
      hagree _ (by omega)⟩
  cases mode with
  | spray =>
    simp only [generatePathsControls, sprayControlPoints]
    refine List.map_congr_left fun i hi => ?_
    obtain ⟨e0, e1, e2, e3⟩ := hidx i (List.mem_range.mp hi)
    unfold generateRandomControlPoints
    rw [e0, e1, e2, e3]
  | neighborhood =>
    simp only [generatePathsControls, neighborhoodControlPoints]
    refine List.map_congr_left fun i hi => ?_
    obtain ⟨e0, e1, e2, e3⟩ := hidx i (List.mem_range.mp hi)
    unfold generateNearbyControlPoints
    rw [e0, e1, e2, e3]
  | heatmap => rfl

/-- Witness for the amended C7: spray mode, two streams agreeing on the
consumed prefix. -/
theorem sampler_deterministic_given_stream_witness :
    generatePathsControls PathMode.spray 100 500 700 300 2 (fun _ => 1 / 2) =
      generatePathsControls PathMode.spray 100 500 700 300 2
        (fun k => if k < 8 then 1 / 2 else 1) :=
  sampler_deterministic_given_stream PathMode.spray 100 500 700 300 2
    (fun _ => 1 / 2) (fun k => if k < 8 then 1 / 2 else 1)
    (fun k hk => by simp [hk])

/-- C8: in NEIGHBORHOOD mode the `i`-th path's control values are the
classical base control values plus additive noise of half-width
`neighborhoodSigma i = 20 + 3i`, strictly increasing in the sample index, so
earlier samples are tighter neighbours of the classical path (noise bounds
hold whenever the stream values lie in `[0, 1)`, the range of
`Math.random`). -/
theorem neighborhood_sigma_monotone (sx sy tx ty : ℝ) (numPaths : ℕ)
    (r : ℕ → ℝ) (hr : ∀ k, 0 ≤ r k ∧ r k < 1) :
    (∀ i j : ℕ, i < j → neighborhoodSigma i < neighborhoodSigma j) ∧
    ∀ i, i < numPaths →
      (neighborhoodControlPoints sx sy tx ty numPaths r).getD i
          ((0, 0), (0, 0)) =
        generateNearbyControlPoints sx sy tx ty (neighborhoodSigma i) r (4 * i) ∧
      |((neighborhoodControlPoints sx sy tx ty numPaths r).getD i
          ((0, 0), (0, 0))).1.1 - (sx + (tx - sx) * 0.33)| ≤
        neighborhoodSigma i ∧
      |((neighborhoodControlPoints sx sy tx ty numPaths r).getD i
          ((0, 0), (0, 0))).1.2 - (sy - (sy - ty) * 0.8 - 100)| ≤
        neighborhoodSigma i / 2 ∧
      |((neighborhoodControlPoints sx sy tx ty numPaths r).getD i
          ((0, 0), (0, 0))).2.1 - (sx + (tx - sx) * 0.67)| ≤
        neighborhoodSigma i ∧
      |((neighborhoodControlPoints sx sy tx ty numPaths r).getD i
          ((0, 0), (0, 0))).2.2 - (sy - (sy - ty) * 0.8 - 100)| ≤
        neighborhoodSigma i / 2 := by
  have hmono : ∀ i j : ℕ, i < j → neighborhoodSigma i < neighborhoodSigma j := by
    intro i j hij
    unfold neighborhoodSigma
    have : (i : ℝ) < (j : ℝ) := by exact_mod_cast hij
    nlinarith
  refine ⟨hmono, fun i hi => ?_⟩
  have hgetD : (neighborhoodControlPoints sx sy tx ty numPaths r).getD i
      ((0, 0), (0, 0)) =
      generateNearbyControlPoints sx sy tx ty (neighborhoodSigma i) r (4 * i) := by
    unfold neighborhoodControlPoints
    rw [List.getD_eq_getElem _ _ (by simpa using hi)]
    simp
  have hsig : (0 : ℝ) < neighborhoodSigma i := by
    unfold neighborhoodSigma
    positivity
  have hnoise : ∀ k, |(r k - 0.5)| ≤ 0.5 := by
    intro k
    obtain ⟨h0, h1⟩ := hr k
    rw [abs_le]
    constructor <;> nlinarith
  refine ⟨hgetD, ?_, ?_, ?_, ?_⟩ <;> rw [hgetD] <;>
    unfold generateNearbyControlPoints <;> simp only
  · have h := hnoise (4 * i)
    rw [show sx + (tx - sx) * 0.33 + (r (4 * i) - 0.5) * neighborhoodSigma i * 2 -
        (sx + (tx - sx) * 0.33) = (r (4 * i) - 0.5) * (neighborhoodSigma i * 2) by ring]
    rw [abs_mul, abs_of_pos (by linarith : (0:ℝ) < neighborhoodSigma i * 2)]
    nlinarith [abs_nonneg (r (4 * i) - 0.5)]
  · have h := hnoise (4 * i + 1)
    rw [show sy - (sy - ty) * 0.8 - 100 + (r (4 * i + 1) - 0.5) * neighborhoodSigma i -
        (sy - (sy - ty) * 0.8 - 100) = (r (4 * i + 1) - 0.5) * neighborhoodSigma i by ring]
    rw [abs_mul, abs_of_pos hsig]
    nlinarith [abs_nonneg (r (4 * i + 1) - 0.5)]
  · have h := hnoise (4 * i + 2)
    rw [show sx + (tx - sx) * 0.67 + (r (4 * i + 2) - 0.5) * neighborhoodSigma i * 2 -
        (sx + (tx - sx) * 0.67) = (r (4 * i + 2) - 0.5) * (neighborhoodSigma i * 2) by ring]
    rw [abs_mul, abs_of_pos (by linarith : (0:ℝ) < neighborhoodSigma i * 2)]
    nlinarith [abs_nonneg (r (4 * i + 2) - 0.5)]
  · have h := hnoise (4 * i + 3)
    rw [show sy - (sy - ty) * 0.8 - 100 + (r (4 * i + 3) - 0.5) * neighborhoodSigma i -
        (sy - (sy - ty) * 0.8 - 100) = (r (4 * i + 3) - 0.5) * neighborhoodSigma i by ring]
    rw [abs_mul, abs_of_pos hsig]
    nlinarith [abs_nonneg (r (4 * i + 3) - 0.5)]

/-- Witness for C8: the sigma ordering of the first two neighborhood samples
at the default endpoints with the constant stream `1/2`. -/
theorem neighborhood_sigma_monotone_witness :
    neighborhoodSigma 0 < neighborhoodSigma 1 :=
  (neighborhood_sigma_monotone 100 500 700 300 2 (fun _ => 1 / 2)
    (fun _ => by norm_num)).1 0 1 (by norm_num)

/-- C4 counterexample: with classical action `1` and candidate actions
`[1, 2]`, the phase assigned to the first candidate is
`(1 - 1)/phaseScale = 0`, not the claimed `cost/phaseScale = 1/phaseScale`:
the code subtracts the classical action before dividing. -/
theorem phase_mapping_counterexample :
    (assignPhases 1 [1, 2]).getD 0 0 = 0 ∧
    (1 : ℝ) / phaseScaleOf 1 [1, 2] = Real.pi * 1.5 ∧
    (assignPhases 1 [1, 2]).getD 0 0 ≠ (1 : ℝ) / phaseScaleOf 1 [1, 2] := by
  have hscale : phaseScaleOf 1 [1, 2] = 1 / (Real.pi * 1.5) := by
    have hmin : ([1, 2] : List ℝ).foldl min 1 = 1 := by
      simp [List.foldl, min_def]
    have hmax : ([1, 2] : List ℝ).foldl max 1 = 2 := by
      simp [List.foldl, max_def]
    simp only [phaseScaleOf, hmin, hmax]
    rw [if_pos (by norm_num : (2 : ℝ) - 1 > 0)]
    rw [if_neg (by positivity : (2 - 1 : ℝ) / (Real.pi * 1.5) ≠ 0)]
    norm_num
  have hphase : (assignPhases 1 [1, 2]).getD 0 0 = 0 := by
    unfold assignPhases
    simp
  have hdiv : (1 : ℝ) / phaseScaleOf 1 [1, 2] = Real.pi * 1.5 := by
    rw [hscale, one_div_one_div]
  refine ⟨hphase, hdiv, ?_⟩
  rw [hphase, hdiv]
  have := Real.pi_pos
  intro hcontra
  nlinarith

/-- C4 amended: every candidate path's phase equals its cost minus the
classical action, divided by the phase scale:
`φ(path) = (cost(path) - classicalAction) / phaseScale`. -/
theorem phase_mapping_eq (classicalAction : ℝ) (actions : List ℝ) (i : ℕ)
    (hi : i < actions.length) :
    (assignPhases classicalAction actions).getD i 0 =
      (actions.getD i 0 - classicalAction) /
        phaseScaleOf classicalAction actions := by
  unfold assignPhases
  rw [List.getD_eq_getElem _ _ (by simpa using hi),
    List.getD_eq_getElem _ _ hi]
  simp

/-- Witness for the amended C4. -/
theorem phase_mapping_eq_witness :
    (assignPhases 1 [1, 2]).getD 1 0 =
      (([1, 2] : List ℝ).getD 1 0 - 1) / phaseScaleOf 1 [1, 2] :=
  phase_mapping_eq 1 [1, 2] 1 (by norm_num)

/-- Folding `min` over a list of values all equal to the seed returns the
seed. -/
lemma foldl_min_all_eq (c : ℝ) :
    ∀ as : List ℝ, (∀ a ∈ as, a = c) → as.foldl min c = c := by
  intro as
  induction as with
  | nil => intro _; rfl
  | cons a tl ih =>
    intro h
    have ha : a = c := h a (List.mem_cons_self a tl)
    rw [List.foldl_cons, ha, min_self]
    exact ih fun b hb => h b (List.mem_cons_of_mem a hb)

/-- Folding `max` over a list of values all equal to the seed returns the
seed. -/
lemma foldl_max_all_eq (c : ℝ) :
    ∀ as : List ℝ, (∀ a ∈ as, a = c) → as.foldl max c = c := by
  intro as
  induction as with
  | nil => intro _; rfl
  | cons a tl ih =>
    intro h
    have ha : a = c := h a (List.mem_cons_self a tl)
    rw [List.foldl_cons, ha, max_self]
    exact ih fun b hb => h b (List.mem_cons_of_mem a hb)

/-- C9: the computed phase scale is always positive (hence finite and
nonzero), and when all candidate costs equal the classical action (zero cost
spread) the guard substitutes the constant scale `1` and every assigned
phase collapses to `0` (fully constructive sum). -/
theorem phase_scale_degeneracy_guard (classicalAction : ℝ) (actions : List ℝ) :
    0 < phaseScaleOf classicalAction actions ∧
    ((∀ a ∈ actions, a = classicalAction) →
      phaseScaleOf classicalAction actions = 1 ∧
      assignPhases classicalAction actions =
        List.replicate actions.length 0) := by
  constructor
  · simp only [phaseScaleOf]
    by_cases hspread : actions.foldl max classicalAction -
        actions.foldl min classicalAction > 0
    · rw [if_pos hspread]
      have hpos : 0 < (actions.foldl max classicalAction -
          actions.foldl min classicalAction) / (Real.pi * 1.5) := by
        have := Real.pi_pos
        positivity
      rw [if_neg (ne_of_gt hpos)]
      exact hpos
    · rw [if_neg hspread]
      norm_num
  · intro hall
    have hscale : phaseScaleOf classicalAction actions = 1 := by
      simp only [phaseScaleOf, foldl_min_all_eq classicalAction actions hall,
        foldl_max_all_eq classicalAction actions hall]
      rw [if_neg (by norm_num : ¬(classicalAction - classicalAction > 0))]
      norm_num
    refine ⟨hscale, ?_⟩
    unfold assignPhases
    rw [hscale]
    have : ∀ a ∈ actions, (fun a => (a - classicalAction) / 1) a =
        (fun _ => (0 : ℝ)) a := by
      intro a ha
      simp [hall a ha]
    rw [List.map_congr_left this, List.map_const']

/-- Witness for C9 with classical action `5` and candidate actions `[5, 5]`. -/
theorem phase_scale_degeneracy_guard_witness :
    0 < phaseScaleOf 5 [5, 5] ∧
    phaseScaleOf 5 [5, 5] = 1 ∧
    assignPhases 5 [5, 5] = List.replicate ([5, 5] : List ℝ).length 0 :=
  ⟨(phase_scale_degeneracy_guard 5 [5, 5]).1,
   ((phase_scale_degeneracy_guard 5 [5, 5]).2 (by simp)).1,
   ((phase_scale_degeneracy_guard 5 [5, 5]).2 (by simp)).2⟩

/-- Folding `searchStep` from a known state yields a pair that is either the
initial state or attained inside the list, never exceeds the initial bound,
and is a lower bound for the travel time on the whole list. -/
lemma foldl_searchStep_some :
    ∀ (l : List ℝ) (m o : ℝ), ∃ p : ℝ × ℝ,
      l.foldl searchStep (some (m, o)) = some p ∧
      ((p.1 = m ∧ p.2 = o) ∨ (p.2 ∈ l ∧ p.1 = calculateTravelTime p.2)) ∧
      p.1 ≤ m ∧ ∀ y ∈ l, p.1 ≤ calculateTravelTime y := by
  intro l
  induction l with
  | nil =>
    intro m o
    exact ⟨(m, o), rfl, Or.inl ⟨rfl, rfl⟩, le_refl _, by simp⟩
  | cons a tl ih =>
    intro m o
    rw [List.foldl_cons]
    by_cases hc : calculateTravelTime a < m
    · have hstep : searchStep (some (m, o)) a =
          some (calculateTravelTime a, a) := by
        simp [searchStep, hc]
      rw [hstep]
      obtain ⟨p, hp, hsrc, hle, hmin⟩ := ih (calculateTravelTime a) a
      refine ⟨p, hp, ?_, hle.trans hc.le, ?_⟩
      · rcases hsrc with ⟨h1, h2⟩ | ⟨h1, h2⟩
        · exact Or.inr ⟨by rw [h2]; exact List.mem_cons_self a tl, by rw [h1, h2]⟩
        · exact Or.inr ⟨List.mem_cons_of_mem a h1, h2⟩
      · intro y hy
        rcases List.mem_cons.mp hy with hya | hyt
        · rw [hya]; exact hle
        · exact hmin y hyt
    · have hstep : searchStep (some (m, o)) a = some (m, o) := by
        simp [searchStep, hc]
      rw [hstep]
      obtain ⟨p, hp, hsrc, hle, hmin⟩ := ih m o
      refine ⟨p, hp, ?_, hle, ?_⟩
      · rcases hsrc with h | ⟨h1, h2⟩
        · exact Or.inl h
        · exact Or.inr ⟨List.mem_cons_of_mem a h1, h2⟩
      · intro y hy
        rcases List.mem_cons.mp hy with hya | hyt
        · rw [hya]; exact hle.trans (not_lt.mp hc)
        · exact hmin y hyt

/-- On a nonempty list the search starting from the `Infinity` sentinel
returns a member of the list attaining the minimum travel time. -/
lemma foldl_searchStep_none (a : ℝ) (l : List ℝ) :
    ∃ p : ℝ × ℝ, (a :: l).foldl searchStep none = some p ∧
      p.2 ∈ a :: l ∧ p.1 = calculateTravelTime p.2 ∧
      ∀ y ∈ a :: l, p.1 ≤ calculateTravelTime y := by
  rw [List.foldl_cons]
  have hstep : searchStep none a = some (calculateTravelTime a, a) := rfl
  rw [hstep]
  obtain ⟨p, hp, hsrc, hle, hmin⟩ := foldl_searchStep_some l (calculateTravelTime a) a
  refine ⟨p, hp, ?_, ?_, ?_⟩
  · rcases hsrc with ⟨h1, h2⟩ | ⟨h1, h2⟩
    · rw [h2]; exact List.mem_cons_self a l
    · exact List.mem_cons_of_mem a h1
  · rcases hsrc with ⟨h1, h2⟩ | ⟨h1, h2⟩
    · rw [h1, h2]
    · exact h2
  · intro y hy
    rcases List.mem_cons.mp hy with hya | hyt
    · rw [hya]; exact hle
    · exact hmin y hyt

/-- `calculateTravelTime` rewritten over the common denominator
`speedOfLight = 299.792` (exact in real arithmetic since `v2 = 299.792/1.5`). -/
lemma calculateTravelTime_eq (x : ℝ) :
    calculateTravelTime x =
      (Real.sqrt ((x - 150) ^ 2 + 40000) +
        1.5 * Real.sqrt ((650 - x) ^ 2 + 40000)) / 299.792 := by
  unfold calculateTravelTime fermatV1 fermatV2
  have h1 : ((300 : ℝ) - 100) ^ 2 = 40000 := by norm_num
  have h2 : ((500 : ℝ) - 300) ^ 2 = 40000 := by norm_num
  rw [h1, h2]
  field_simp
  ring

/-- Tangent-line (Cauchy–Schwarz) lower bound for the product of two
square roots of shifted squares. -/
lemma sqrt_tangent_bound (u v c : ℝ) (hc : 0 ≤ c) :
    u * v + c ≤ Real.sqrt (u ^ 2 + c) * Real.sqrt (v ^ 2 + c) := by
  have hA0 : 0 ≤ Real.sqrt (u ^ 2 + c) := Real.sqrt_nonneg _
  have hB0 : 0 ≤ Real.sqrt (v ^ 2 + c) := Real.sqrt_nonneg _
  have hA2 : Real.sqrt (u ^ 2 + c) ^ 2 = u ^ 2 + c := Real.sq_sqrt (by positivity)
  have hB2 : Real.sqrt (v ^ 2 + c) ^ 2 = v ^ 2 + c := Real.sq_sqrt (by positivity)
  rcases le_or_lt (u * v + c) 0 with h | h
  · exact h.trans (mul_nonneg hA0 hB0)
  · have hsq : (u * v + c) ^ 2 ≤
        (Real.sqrt (u ^ 2 + c) * Real.sqrt (v ^ 2 + c)) ^ 2 := by
      have hab : (Real.sqrt (u ^ 2 + c) * Real.sqrt (v ^ 2 + c)) ^ 2 =
          (u ^ 2 + c) * (v ^ 2 + c) := by rw [mul_pow, hA2, hB2]
      nlinarith [mul_nonneg hc (sq_nonneg (u - v))]
    calc u * v + c = Real.sqrt ((u * v + c) ^ 2) := (Real.sqrt_sq h.le).symm
      _ ≤ Real.sqrt ((Real.sqrt (u ^ 2 + c) * Real.sqrt (v ^ 2 + c)) ^ 2) :=
          Real.sqrt_le_sqrt hsq
      _ = Real.sqrt (u ^ 2 + c) * Real.sqrt (v ^ 2 + c) :=
          Real.sqrt_sq (mul_nonneg hA0 hB0)

/-- Left of the optimum window: every `x ∈ [100, 500]` has strictly larger
travel time than the grid point `507`. -/
lemma travelTime_left_gt (x : ℝ) (hx1 : 100 ≤ x) (hx2 : x ≤ 500) :
    calculateTravelTime 507 < calculateTravelTime x := by
  rw [calculateTravelTime_eq, calculateTravelTime_eq]
  have h507a : Real.sqrt (((507 : ℝ) - 150) ^ 2 + 40000) < 409.21 := by
    rw [show (((507 : ℝ) - 150) ^ 2 + 40000) = 167449 by norm_num,
      Real.sqrt_lt' (by norm_num)]
    norm_num
  have h507b : Real.sqrt (((650 : ℝ) - 507) ^ 2 + 40000) < 245.87 := by
    rw [show (((650 : ℝ) - 507) ^ 2 + 40000) = 60449 by norm_num,
      Real.sqrt_lt' (by norm_num)]
    norm_num
  have hA0 : 0 ≤ Real.sqrt ((x - 150) ^ 2 + 40000) := Real.sqrt_nonneg _
  have htanA : (x - 150) * 350 + 40000 ≤
      Real.sqrt ((x - 150) ^ 2 + 40000) * Real.sqrt ((350 : ℝ) ^ 2 + 40000) := by
    have := sqrt_tangent_bound (x - 150) 350 40000 (by norm_num)
    linarith
  have hs350 : Real.sqrt ((350 : ℝ) ^ 2 + 40000) ≤ 403.12 := by
    rw [show ((350 : ℝ) ^ 2 + 40000) = 162500 by norm_num,
      Real.sqrt_le_left (by norm_num)]
    norm_num
  have hA : (x - 150) * 350 + 40000 ≤
      Real.sqrt ((x - 150) ^ 2 + 40000) * 403.12 := by
    calc (x - 150) * 350 + 40000 ≤
        Real.sqrt ((x - 150) ^ 2 + 40000) * Real.sqrt ((350 : ℝ) ^ 2 + 40000) :=
          htanA
      _ ≤ Real.sqrt ((x - 150) ^ 2 + 40000) * 403.12 :=
          mul_le_mul_of_nonneg_left hs350 hA0
  have hs150 : Real.sqrt ((150 : ℝ) ^ 2 + 40000) = 250 := by
    rw [show ((150 : ℝ) ^ 2 + 40000) = 250 ^ 2 by norm_num]
    exact Real.sqrt_sq (by norm_num)
  have htanB : (650 - x) * 150 + 40000 ≤
      Real.sqrt ((650 - x) ^ 2 + 40000) * 250 := by
    have := sqrt_tangent_bound (650 - x) 150 40000 (by norm_num)
    rw [hs150] at this
    linarith
  rw [div_lt_div_iff_of_pos_right (by norm_num : (0 : ℝ) < 299.792)]
  nlinarith [hA, htanB, h507a, h507b, hx2]

/-- Right of the optimum window: every `x ∈ [513.5, 700]` has strictly
larger travel time than the grid point `507`. -/
lemma travelTime_right_gt (x : ℝ) (hx1 : 513.5 ≤ x) (hx2 : x ≤ 700) :
    calculateTravelTime 507 < calculateTravelTime x := by
  rw [calculateTravelTime_eq, calculateTravelTime_eq]
  have h507a : Real.sqrt (((507 : ℝ) - 150) ^ 2 + 40000) < 409.21 := by
    rw [show (((507 : ℝ) - 150) ^ 2 + 40000) = 167449 by norm_num,
      Real.sqrt_lt' (by norm_num)]
    norm_num
  have h507b : Real.sqrt (((650 : ℝ) - 507) ^ 2 + 40000) < 245.87 := by
    rw [show (((650 : ℝ) - 507) ^ 2 + 40000) = 60449 by norm_num,
      Real.sqrt_lt' (by norm_num)]
    norm_num
  have hA0 : 0 ≤ Real.sqrt ((x - 150) ^ 2 + 40000) := Real.sqrt_nonneg _
  have hB0 : 0 ≤ Real.sqrt ((650 - x) ^ 2 + 40000) := Real.sqrt_nonneg _
  have htanA : (x - 150) * 363.5 + 40000 ≤
      Real.sqrt ((x - 150) ^ 2 + 40000) * Real.sqrt ((363.5 : ℝ) ^ 2 + 40000) := by
    have := sqrt_tangent_bound (x - 150) 363.5 40000 (by norm_num)
    linarith
  have hs3635 : Real.sqrt ((363.5 : ℝ) ^ 2 + 40000) ≤ 414.89 := by
    rw [Real.sqrt_le_left (by norm_num)]
    norm_num
  have hA : (x - 150) * 363.5 + 40000 ≤
      Real.sqrt ((x - 150) ^ 2 + 40000) * 414.89 :=
    htanA.trans (mul_le_mul_of_nonneg_left hs3635 hA0)
  have htanB : (650 - x) * 136.5 + 40000 ≤
      Real.sqrt ((650 - x) ^ 2 + 40000) * Real.sqrt ((136.5 : ℝ) ^ 2 + 40000) := by
    have := sqrt_tangent_bound (650 - x) 136.5 40000 (by norm_num)
    linarith
  have hs1365 : Real.sqrt ((136.5 : ℝ) ^ 2 + 40000) ≤ 242.15 := by
    rw [Real.sqrt_le_left (by norm_num)]
    norm_num
  have hB : (650 - x) * 136.5 + 40000 ≤
      Real.sqrt ((650 - x) ^ 2 + 40000) * 242.15 :=
    htanB.trans (mul_le_mul_of_nonneg_left hs1365 hB0)
  rw [div_lt_div_iff_of_pos_right (by norm_num : (0 : ℝ) < 299.792)]
  nlinarith [hA, hB, h507a, h507b, hx1]

set_option maxRecDepth 10000 in
/-- Exact integer check of the Snell sine-ratio tolerance on the grid window
`k ∈ [801, 826]` (grid point `x = 100 + k/2`, so `2(x-150) = k - 100` and
`2(650-x) = 1100 - k`; the inequalities are the squared forms of
`1.45 ≤ sinθ₁/sinθ₂ ≤ 1.55` scaled by `16·400`). -/
lemma snell_window_nat : ∀ k : ℕ, k < 827 → 801 ≤ k →
    841 * (1100 - k) ^ 2 * ((k - 100) ^ 2 + 160000) ≤
      400 * (k - 100) ^ 2 * ((1100 - k) ^ 2 + 160000) ∧
    400 * (k - 100) ^ 2 * ((1100 - k) ^ 2 + 160000) ≤
      961 * (1100 - k) ^ 2 * ((k - 100) ^ 2 + 160000) := by decide

/-- For a boundary point strictly between the source and target abscissas,
the sine of the incidence angle recovered from `calculateAngles` (degrees
back to radians) is `(x-150)/d₁`, and similarly for refraction. -/
lemma sin_calculateAngles (x : ℝ) (h1 : 150 < x) (h2 : x < 650) :
    Real.sin ((calculateAngles x).1 * (Real.pi / 180)) =
      (x - 150) / Real.sqrt ((x - 150) ^ 2 + 40000) ∧
    Real.sin ((calculateAngles x).2 * (Real.pi / 180)) =
      (650 - x) / Real.sqrt ((650 - x) ^ 2 + 40000) := by
  have hpi := Real.pi_ne_zero
  have hdeg : ∀ t : ℝ, t * 180 / Real.pi * (Real.pi / 180) = t := by
    intro t
    field_simp
  have hsin : ∀ a : ℝ, 0 < a →
      Real.sin (|Real.arctan (a / 200)|) = a / Real.sqrt (a ^ 2 + 40000) := by
    intro a ha
    have harc : 0 < Real.arctan (a / 200) := by
      have := Real.arctan_strictMono (show (0 : ℝ) < a / 200 by positivity)
      rwa [Real.arctan_zero] at this
    rw [abs_of_pos harc, Real.sin_arctan]
    have hquot : 1 + (a / 200) ^ 2 = (a ^ 2 + 40000) / 200 ^ 2 := by ring
    rw [hquot, Real.sqrt_div' _ (by norm_num : (0 : ℝ) ≤ 200 ^ 2),
      Real.sqrt_sq (by norm_num : (0 : ℝ) ≤ 200)]
    have hd : Real.sqrt (a ^ 2 + 40000) ≠ 0 :=
      ne_of_gt (Real.sqrt_pos.mpr (by positivity))
    field_simp
  constructor
  · have heq : (calculateAngles x).1 * (Real.pi / 180) =
        |Real.arctan ((x - 150) / 200)| := by
      unfold calculateAngles
      rw [show ((300 : ℝ) - 100) = 200 by norm_num]
      exact hdeg _
    rw [heq]
    exact hsin (x - 150) (by linarith)
  · have heq : (calculateAngles x).2 * (Real.pi / 180) =
        |Real.arctan ((650 - x) / 200)| := by
      unfold calculateAngles
      rw [show ((500 : ℝ) - 300) = 200 by norm_num]
      exact hdeg _
    rw [heq]
    exact hsin (650 - x) (by linarith)

/-- From the squared rational inequalities, the sine ratio at a boundary
point between the endpoints lies within `0.05` of `1.5`. -/
lemma snell_ratio_bound (x : ℝ) (h1 : 150 < x) (h2 : x < 650)
    (hlo : 841 * (650 - x) ^ 2 * ((x - 150) ^ 2 + 40000) ≤
      400 * (x - 150) ^ 2 * ((650 - x) ^ 2 + 40000))
    (hhi : 400 * (x - 150) ^ 2 * ((650 - x) ^ 2 + 40000) ≤
      961 * (650 - x) ^ 2 * ((x - 150) ^ 2 + 40000)) :
    |Real.sin ((calculateAngles x).1 * (Real.pi / 180)) /
        Real.sin ((calculateAngles x).2 * (Real.pi / 180)) - 1.5| ≤ 0.05 := by
  obtain ⟨hs1, hs2⟩ := sin_calculateAngles x h1 h2
  rw [hs1, hs2]
  have hapos : (0 : ℝ) < x - 150 := by linarith
  have hbpos : (0 : ℝ) < 650 - x := by linarith
  have d1pos : 0 < Real.sqrt ((x - 150) ^ 2 + 40000) :=
    Real.sqrt_pos.mpr (by positivity)
  have d2pos : 0 < Real.sqrt ((650 - x) ^ 2 + 40000) :=
    Real.sqrt_pos.mpr (by positivity)
  have d1sq : Real.sqrt ((x - 150) ^ 2 + 40000) ^ 2 = (x - 150) ^ 2 + 40000 :=
    Real.sq_sqrt (by positivity)
  have d2sq : Real.sqrt ((650 - x) ^ 2 + 40000) ^ 2 = (650 - x) ^ 2 + 40000 :=
    Real.sq_sqrt (by positivity)
  have hlow : 29 * ((650 - x) * Real.sqrt ((x - 150) ^ 2 + 40000)) ≤
      20 * ((x - 150) * Real.sqrt ((650 - x) ^ 2 + 40000)) := by
    have hP0 : (0 : ℝ) ≤ 29 * ((650 - x) * Real.sqrt ((x - 150) ^ 2 + 40000)) := by
      positivity
    have hQ0 : (0 : ℝ) ≤ 20 * ((x - 150) * Real.sqrt ((650 - x) ^ 2 + 40000)) := by
      positivity
    have hsq : (29 * ((650 - x) * Real.sqrt ((x - 150) ^ 2 + 40000))) ^ 2 ≤
        (20 * ((x - 150) * Real.sqrt ((650 - x) ^ 2 + 40000))) ^ 2 := by
      have e1 : (29 * ((650 - x) * Real.sqrt ((x - 150) ^ 2 + 40000))) ^ 2 =
          841 * (650 - x) ^ 2 * ((x - 150) ^ 2 + 40000) := by
        rw [mul_pow, mul_pow, d1sq]; ring
      have e2 : (20 * ((x - 150) * Real.sqrt ((650 - x) ^ 2 + 40000))) ^ 2 =
          400 * (x - 150) ^ 2 * ((650 - x) ^ 2 + 40000) := by
        rw [mul_pow, mul_pow, d2sq]; ring
      rw [e1, e2]; exact hlo
    calc 29 * ((650 - x) * Real.sqrt ((x - 150) ^ 2 + 40000)) =
        Real.sqrt ((29 * ((650 - x) * Real.sqrt ((x - 150) ^ 2 + 40000))) ^ 2) :=
          (Real.sqrt_sq hP0).symm
      _ ≤ Real.sqrt ((20 * ((x - 150) * Real.sqrt ((650 - x) ^ 2 + 40000))) ^ 2) :=
          Real.sqrt_le_sqrt hsq
      _ = 20 * ((x - 150) * Real.sqrt ((650 - x) ^ 2 + 40000)) :=
          Real.sqrt_sq hQ0
  have hhigh : 20 * ((x - 150) * Real.sqrt ((650 - x) ^ 2 + 40000)) ≤
      31 * ((650 - x) * Real.sqrt ((x - 150) ^ 2 + 40000)) := by
    have hP0 : (0 : ℝ) ≤ 20 * ((x - 150) * Real.sqrt ((650 - x) ^ 2 + 40000)) := by
      positivity
    have hQ0 : (0 : ℝ) ≤ 31 * ((650 - x) * Real.sqrt ((x - 150) ^ 2 + 40000)) := by
      positivity
    have hsq : (20 * ((x - 150) * Real.sqrt ((650 - x) ^ 2 + 40000))) ^ 2 ≤
        (31 * ((650 - x) * Real.sqrt ((x - 150) ^ 2 + 40000))) ^ 2 := by
      have e1 : (20 * ((x - 150) * Real.sqrt ((650 - x) ^ 2 + 40000))) ^ 2 =
          400 * (x - 150) ^ 2 * ((650 - x) ^ 2 + 40000) := by
        rw [mul_pow, mul_pow, d2sq]; ring
      have e2 : (31 * ((650 - x) * Real.sqrt ((x - 150) ^ 2 + 40000))) ^ 2 =
          961 * (650 - x) ^ 2 * ((x - 150) ^ 2 + 40000) := by
        rw [mul_pow, mul_pow, d1sq]; ring
      rw [e1, e2]; exact hhi
    calc 20 * ((x - 150) * Real.sqrt ((650 - x) ^ 2 + 40000)) =
        Real.sqrt ((20 * ((x - 150) * Real.sqrt ((650 - x) ^ 2 + 40000))) ^ 2) :=
          (Real.sqrt_sq hP0).symm
      _ ≤ Real.sqrt ((31 * ((650 - x) * Real.sqrt ((x - 150) ^ 2 + 40000))) ^ 2) :=
          Real.sqrt_le_sqrt hsq
      _ = 31 * ((650 - x) * Real.sqrt ((x - 150) ^ 2 + 40000)) :=
          Real.sqrt_sq hQ0
  have heq : ((x - 150) / Real.sqrt ((x - 150) ^ 2 + 40000)) /
      ((650 - x) / Real.sqrt ((650 - x) ^ 2 + 40000)) =
      ((x - 150) * Real.sqrt ((650 - x) ^ 2 + 40000)) /
        ((650 - x) * Real.sqrt ((x - 150) ^ 2 + 40000)) := by
    field_simp
    ring
  rw [heq, abs_le]
  have hden : (0 : ℝ) < (650 - x) * Real.sqrt ((x - 150) ^ 2 + 40000) := by
    positivity
  constructor
  · rw [le_sub_iff_add_le, le_div_iff₀ hden]
    nlinarith [hlow]
  · rw [sub_le_iff_le_add, div_le_iff₀ hden]
    nlinarith [hhigh]

/-- C1: for the refraction configuration (source `(150,100)`, target
`(650,500)`, boundary `y = 300`, `v1 = 299.792`, `v2 = 299.792/1.5`), the
grid search `findOptimalRefractionPoint` over `x ∈ [100, 700]` with step
`0.5` returns a grid point of minimum travel time `T(x) = d1/v1 + d2/v2`
together with that time, and at the returned point the sine ratio
`sin θ₁ / sin θ₂` computed from `calculateAngles` equals `v1/v2` to within
`0.05` absolute tolerance (Snell's law as a postcondition of the
minimisation). -/
theorem fermat_grid_search_snell :
    ∃ p : ℝ × ℝ, findOptimalRefractionPoint = some p ∧
      p.2 ∈ fermatGrid ∧ p.1 = calculateTravelTime p.2 ∧
      (∀ y ∈ fermatGrid, calculateTravelTime p.2 ≤ calculateTravelTime y) ∧
      |Real.sin ((calculateAngles p.2).1 * (Real.pi / 180)) /
          Real.sin ((calculateAngles p.2).2 * (Real.pi / 180)) -
        fermatV1 / fermatV2| ≤ 0.05 := by
  have hcons : fermatGrid = (100 + ((0 : ℕ) : ℝ) / 2) ::
      (List.range 1200).map (fun k => 100 + ((Nat.succ k : ℕ) : ℝ) / 2) := by
    unfold fermatGrid
    rw [show (1201 : ℕ) = 1200 + 1 from rfl, List.range_succ_eq_map,
      List.map_cons, List.map_map]
    rfl
  obtain ⟨p, hp, hmem, heq, hmin⟩ :
      ∃ p : ℝ × ℝ, fermatGrid.foldl searchStep none = some p ∧
        p.2 ∈ fermatGrid ∧ p.1 = calculateTravelTime p.2 ∧
        ∀ y ∈ fermatGrid, p.1 ≤ calculateTravelTime y := by
    rw [hcons]
    exact foldl_searchStep_none _ _
  have hminT : ∀ y ∈ fermatGrid, calculateTravelTime p.2 ≤ calculateTravelTime y := by
    intro y hy
    rw [← heq]
    exact hmin y hy
  refine ⟨p, hp, hmem, heq, hminT, ?_⟩
  have h507 : (507 : ℝ) ∈ fermatGrid := by
    unfold fermatGrid
    refine List.mem_map.mpr ⟨814, List.mem_range.mpr (by norm_num), ?_⟩
    push_cast
    norm_num
  have hle507 : calculateTravelTime p.2 ≤ calculateTravelTime 507 :=
    hminT 507 h507
  obtain ⟨k, hkmem, hxk⟩ := List.mem_map.mp hmem
  have hk1201 : k < 1201 := List.mem_range.mp hkmem
  rcases Nat.lt_or_ge k 801 with hklt | hk801
  · exfalso
    have hkle : (k : ℝ) ≤ 800 := by exact_mod_cast Nat.lt_succ_iff.mp hklt
    have hknn : (0 : ℝ) ≤ (k : ℝ) := Nat.cast_nonneg k
    have hxle : p.2 ≤ 500 := by rw [← hxk]; linarith
    have hxge : 100 ≤ p.2 := by rw [← hxk]; linarith
    exact (travelTime_left_gt p.2 hxge hxle).not_le hle507
  rcases Nat.lt_or_ge k 827 with hklt827 | hk827
  swap
  · exfalso
    have hkge : (827 : ℝ) ≤ (k : ℝ) := by exact_mod_cast hk827
    have hkle : (k : ℝ) ≤ 1200 := by exact_mod_cast Nat.lt_succ_iff.mp hk1201
    have hxge : 513.5 ≤ p.2 := by rw [← hxk]; linarith
    have hxle : p.2 ≤ 700 := by rw [← hxk]; linarith
    exact (travelTime_right_gt p.2 hxge hxle).not_le hle507
  obtain ⟨hnlo, hnhi⟩ := snell_window_nat k hklt827 hk801
  have h100k : 100 ≤ k := by omega
  have hk1100 : k ≤ 1100 := by omega
  have hrlo : (841 : ℝ) * (1100 - (k : ℝ)) ^ 2 * (((k : ℝ) - 100) ^ 2 + 160000) ≤
      400 * ((k : ℝ) - 100) ^ 2 * ((1100 - (k : ℝ)) ^ 2 + 160000) := by
    zify [h100k, hk1100] at hnlo
    exact_mod_cast hnlo
  have hrhi : (400 : ℝ) * ((k : ℝ) - 100) ^ 2 * ((1100 - (k : ℝ)) ^ 2 + 160000) ≤
      961 * (1100 - (k : ℝ)) ^ 2 * (((k : ℝ) - 100) ^ 2 + 160000) := by
    zify [h100k, hk1100] at hnhi
    exact_mod_cast hnhi
  have hkr : (k : ℝ) = 2 * p.2 - 200 := by rw [← hxk]; ring
  rw [hkr] at hrlo hrhi
  have hxlo : 841 * (650 - p.2) ^ 2 * ((p.2 - 150) ^ 2 + 40000) ≤
      400 * (p.2 - 150) ^ 2 * ((650 - p.2) ^ 2 + 40000) := by nlinarith [hrlo]
  have hxhi : 400 * (p.2 - 150) ^ 2 * ((650 - p.2) ^ 2 + 40000) ≤
      961 * (650 - p.2) ^ 2 * ((p.2 - 150) ^ 2 + 40000) := by nlinarith [hrhi]
  have hkge : (801 : ℝ) ≤ (k : ℝ) := by exact_mod_cast hk801
  have hkle : (k : ℝ) ≤ 826 := by exact_mod_cast Nat.lt_succ_iff.mp hklt827
  have h150 : 150 < p.2 := by rw [← hxk]; linarith
  have h650 : p.2 < 650 := by rw [← hxk]; linarith
  have hv : fermatV1 / fermatV2 = 1.5 := by
    unfold fermatV1 fermatV2
    norm_num
  rw [hv]
  exact snell_ratio_bound p.2 h150 h650 hxlo hxhi
